import Mathlib

/-!
Verification development for the pyrodigy repository: a shallow embedding of
its configuration-resolution utilities (`src/config/config_utils.py`), the
optimizer wrapper (`src/pyrodigy/optimizer_wrapper.py`) and the custom
AdaBelief-style optimizer (`src/safe_optimizer/adabelief_plus.py`), together
with theorems settling the specification claims.

Numbers are modelled as rationals (the Python code uses floating point; the
claims settled here are sign, symmetry, zero/nonzero and structural facts that
are insensitive to rounding). Python dictionaries are association lists with
unique keys kept in insertion order. Python exceptions are `Except` errors.
-/

namespace Pyrodigy

/-- Python error values raised by the embedded code.
`valueError` and `typeError` carry the message string; `noSparseGradient`
models `pytorch_optimizer`'s `NoSparseGradientError`. -/
inductive PyErr where
  | valueError (msg : String)
  | typeError (msg : String)
  | noSparseGradient
  deriving Repr, DecidableEq

/-- A configuration value: number, boolean, pair of numbers (betas), or string. -/
inductive Val where
  | num (q : ℚ)
  | bool (b : Bool)
  | pair (a b : ℚ)
  | str (s : String)
  deriving Repr, DecidableEq

/-- A Python dict with string keys, as an association list in insertion order
with unique keys. -/
abbrev Dict := List (String × Val)

/-- Dictionary lookup, `d.get(k)` / `d[k]`. -/
def dictGet (d : Dict) (k : String) : Option Val :=
  (d.find? (fun kv => kv.1 = k)).map (fun kv => kv.2)

/-- Key membership, `k in d`. -/
def dictContains (d : Dict) (k : String) : Bool :=
  d.any (fun kv => kv.1 = k)

/-- `d.update(kwargs)`: existing keys are overwritten in place, new keys are
appended in order. -/
def dictUpdate (d kwargs : Dict) : Dict :=
  d.map (fun kv => (kv.1, (dictGet kwargs kv.1).getD kv.2))
    ++ kwargs.filter (fun kv => ¬ dictContains d kv.1)

/-- `d.pop(k, None)`: the dictionary without key `k`. -/
def dictPop (d : Dict) (k : String) : Dict :=
  d.filter (fun kv => kv.1 ≠ k)

/-! ## `config.config_utils.get_config` -/

/-- The importable configuration modules.  `modules m` is `none` when
`import_module m` raises `ModuleNotFoundError`; it is `some none` when the
module exists but has no `use_case_configs` attribute (`AttributeError` on
access); it is `some (some store)` when the module exposes the preset store
`store`, a dict from preset label to preset dict. -/
structure ConfigEnv where
  modules : String → Option (Option (List (String × Dict)))

/-- Store lookup `store.get(label)` for a preset store. -/
def storeGet (store : List (String × Dict)) (label : String) : Option Dict :=
  (store.find? (fun kv => kv.1 = label)).map (fun kv => kv.2)

/-- The `optimizer` argument of `get_config`: a string name, a class (only its
name matters to the code), or a user-supplied dict of configurations. -/
inductive OptimizerArg where
  | str (s : String)
  | cls (name : String)
  | dict (d : List (String × Dict))

/-- The string-optimizer branch of `config_utils.get_config`: import
`config.{optimizer}_config` and return `use_case_configs.get(config_name)` —
note the `.get`: an absent label yields `.ok none` (Python `None`), not an
error.  `ModuleNotFoundError` and `AttributeError` become `ValueError`s. -/
def get_config_str (env : ConfigEnv) (s config_name : String) : Except PyErr (Option Dict) :=
  match env.modules ("config." ++ s ++ "_config") with
  | none =>
      .error (.valueError ("Configuration module for optimizer '" ++ s ++ "' not found."))
  | some none =>
      .error (.valueError ("Configuration '" ++ config_name ++ "' not found for optimizer '"
        ++ s ++ "'."))
  | some (some store) => .ok (storeGet store config_name)

/-- Embeds `config_utils.get_config`.  A class argument recurses with the
lowercased class name; a dict argument returns `d.get(config_name, None)`. -/
def get_config (env : ConfigEnv) : OptimizerArg → String → Except PyErr (Option Dict)
  | .str s, config_name => get_config_str env s config_name
  | .cls name, config_name => get_config_str env name.toLower config_name
  | .dict d, config_name => .ok (storeGet d config_name)

/-- The actual `adabelief` preset store from `src/config/adabelief_config.py`
(`use_case_configs`). -/
def adabeliefStore : List (String × Dict) :=
  [("low_memory",
     [("optimizer", .str "AdaBelief"), ("lr", .num (1 / 10000)),
      ("betas", .pair (9 / 10) (999 / 1000)), ("eps", .num (1 / 10 ^ 8)),
      ("weight_decay", .num (1 / 100)), ("weight_decouple", .bool true),
      ("rectify", .bool false), ("ams_bound", .bool false), ("adanorm", .bool false)]),
   ("consumer",
     [("optimizer", .str "AdaBelief"), ("lr", .num (1 / 10000)),
      ("betas", .pair (9 / 10) (999 / 1000)), ("eps", .num (1 / 10 ^ 8)),
      ("weight_decay", .num (1 / 100)), ("weight_decouple", .bool true),
      ("rectify", .bool true), ("ams_bound", .bool false), ("adanorm", .bool false)]),
   ("high_memory",
     [("optimizer", .str "AdaBelief"), ("lr", .num (5 / 10 ^ 5)),
      ("betas", .pair (9 / 10) (999 / 1000)), ("eps", .num (1 / 10 ^ 8)),
      ("weight_decay", .num (1 / 100)), ("weight_decouple", .bool true),
      ("rectify", .bool true), ("ams_bound", .bool true), ("adanorm", .bool true),
      ("r", .num (19 / 20))])]

/-- An environment whose only configuration module is the actual
`config.adabelief_config`. -/
def adabeliefEnv : ConfigEnv where
  modules := fun m =>
    if m = "config.adabelief_config" then some (some adabeliefStore) else none

/-! ## `OptimizerWrapper.__init__` configuration pipeline -/

/-- Python keyword binding for
`__init__(self, params, optimizer_name, config_name="consumer", lr=0.001, **kwargs)`:
a caller keyword `lr=` binds to the named parameter `lr` (default `0.001`) and
therefore never reaches `**kwargs`. Returns the bound `lr` and the residual
`kwargs`. -/
def bindInitKwargs (callerKwargs : Dict) : ℚ × Dict :=
  (match dictGet callerKwargs "lr" with
   | some (.num q) => q
   | _ => 1 / 1000,
   dictPop callerKwargs "lr")

/-- Embeds lines 60-64 of `optimizer_wrapper.py`:
`config.update(kwargs)` then
`if "lr" in config and "lr" not in kwargs: config.pop("lr", None)`. -/
def wrapperMergeConfig (preset kwargs : Dict) : Dict :=
  let config := dictUpdate preset kwargs
  if dictContains config "lr" ∧ ¬ dictContains kwargs "lr" then dictPop config "lr"
  else config

/-- The full configuration pipeline of `OptimizerWrapper.__init__` as seen by a
caller: bind the caller's keywords, then merge preset and residual kwargs.
Returns the effective learning rate and the merged configuration. -/
def wrapperInitConfig (preset callerKwargs : Dict) : ℚ × Dict :=
  let (lr, kwargs) := bindInitKwargs callerKwargs
  (lr, wrapperMergeConfig preset kwargs)

/-- Embeds `OptimizerWrapper._initialize_optimizer`'s argument assembly: when
the optimizer class accepts an `lr` parameter the call is
`optimizer_class(params, lr=lr, **config)`, otherwise
`optimizer_class(params, **config)`.  Returns the keyword arguments passed to
the constructor. -/
def initArgs (acceptsLr : Bool) (lr : ℚ) (config : Dict) : Dict :=
  if acceptsLr then ("lr", .num lr) :: config else config

/-! ## `OptimizerWrapper.get_optimizer_class` (two-tier implementation lookup) -/

/-- A symbol found in a `safe_optimizer` module: either a class (identified by
a name tag) or some non-class object. `inspect.isclass` distinguishes them. -/
inductive PySymbol where
  | cls (c : String)
  | nonClass
  deriving Repr, DecidableEq

/-- The import environment for implementation lookup.
`safeModules path` is `none` when `importlib.import_module(path)` raises
`ImportError`, otherwise `some attrs` where `attrs a` models
`getattr(module, a)` when `hasattr(module, a)`.
`registry` models `pytorch_optimizer.load_optimizer`: `none` means it raises
`ValueError` for that name. -/
structure OptEnv where
  safeModules : String → Option (String → Option PySymbol)
  registry : String → Option String

/-- Embeds `OptimizerWrapper.get_optimizer_class_fallback`: load the standard
optimizer from `pytorch_optimizer`, or fail with `ValueError`. -/
def get_optimizer_class_fallback (env : OptEnv) (optimizer_name : String) :
    Except PyErr (String × Bool) :=
  match env.registry optimizer_name with
  | some c => .ok (c, false)
  | none =>
      .error (.valueError ("Optimizer '" ++ optimizer_name ++ "' not found in pytorch_optimizer."))

/-- Embeds `OptimizerWrapper.get_optimizer_class`: derive the custom name by
lowercasing and appending `"_plus"`, import `safe_optimizer.{custom}`; if the
module has the class, return it with `is_plus = true`; if the attribute exists
but is not a class, raise `TypeError` (which is not an `ImportError` and so
propagates without falling back); if the module or attribute is missing, fall
back to the standard registry. -/
def get_optimizer_class (env : OptEnv) (optimizer_name : String) :
    Except PyErr (String × Bool) :=
  let custom_optimizer_name := optimizer_name.toLower ++ "_plus"
  let custom_module_path := "safe_optimizer." ++ custom_optimizer_name
  match env.safeModules custom_module_path with
  | none => get_optimizer_class_fallback env optimizer_name
  | some attrs =>
    match attrs custom_optimizer_name with
    | some (.cls c) => .ok (c, true)
    | some .nonClass =>
        .error (.typeError ("'" ++ custom_optimizer_name ++ "' in '" ++ custom_module_path
          ++ "' must be a class."))
    | none => get_optimizer_class_fallback env optimizer_name

/-! ## `safe_optimizer.adabelief_plus`

Tensors over one parameter are `Vec := List ℚ` (elementwise arithmetic).
Python/torch aliasing matters here: `apply_weight_decay` rebinds the local
variable `p` to a fresh tensor in the decoupled branch, so later in-place
updates land on a temporary; the embedding tracks this with an `aliased`
flag. -/

abbrev Vec := List ℚ

/-- `torch.zeros_like(p)`. -/
def zerosLike (v : Vec) : Vec := v.map fun _ => 0

/-- `p.addcdiv_(num, den, value=c)`: elementwise `p + c * num / den`. -/
def addcdiv (p num den : Vec) (c : ℚ) : Vec :=
  p.zipWith (fun pi nd => pi + c * nd) (num.zipWith (fun n d => n / d) den)

/-- Hyperparameters of one parameter group, with the `adabelief_plus.__init__`
defaults. -/
structure Hyper where
  lr : ℚ := 1 / 1000
  beta1 : ℚ := 9 / 10
  beta2 : ℚ := 999 / 1000
  weight_decay : ℚ := 0
  weight_decouple : Bool := true
  fixed_decay : Bool := false
  rectify : Bool := false
  n_sma_threshold : ℤ := 5
  degenerated_to_sgd : Bool := true
  ams_bound : Bool := false
  r : ℚ := 19 / 20
  adanorm : Bool := false
  adam_debias : Bool := false
  eps : ℚ := 1 / 10 ^ 16
  deriving Repr, DecidableEq

/-- Per-parameter optimizer state (`self.state[p]` once initialized):
first moment, second moment, and the optional adanorm and AMS-bound buffers. -/
structure PState where
  exp_avg : Vec
  exp_avg_var : Vec
  exp_grad_norm : Option ℚ
  max_exp_avg_var : Option Vec
  deriving Repr, DecidableEq

/-- A gradient tensor: sparse (layout only — the dense-only algorithm rejects
it before reading values) or dense with its values. -/
inductive Grad where
  | sparse
  | dense (g : Vec)
  deriving Repr, DecidableEq

/-- One trainable parameter as the optimizer sees it: stored value, `p.grad`,
and its state record (`none` before lazy initialization). -/
structure PEntry where
  value : Vec
  grad : Option Grad
  state : Option PState
  deriving Repr, DecidableEq

/-- Result of `apply_weight_decay`: the local variable `p` after the call,
whether it still aliases the stored parameter tensor, and the gradient tensor
after the call (mutated in place in the coupled branch). -/
structure WdResult where
  pLocal : Vec
  aliased : Bool
  grad : Option Vec

/-- Embeds the static method `adabelief_plus.apply_weight_decay`
(lines 59-82).  Decoupled: `p = p * decay_factor` — an out-of-place product
assigned to the local name, breaking the alias to the stored parameter.
Coupled with positive decay: `grad.add_(p, alpha=weight_decay)` mutates the
gradient in place and `p` keeps aliasing the parameter. -/
def apply_weight_decay (p : Vec) (grad : Option Vec) (lr weight_decay : ℚ)
    (weight_decouple fixed_decay : Bool) (ratio : Option ℚ) : WdResult :=
  if weight_decouple then
    let decay_factor := 1 - weight_decay * (if fixed_decay then 1 else lr) * (ratio.getD 1)
    ⟨p.map (· * decay_factor), false, grad⟩
  else if weight_decay > 0 ∧ grad.isSome then
    ⟨p, true, grad.map (fun g => g.zipWith (fun gi pi => gi + weight_decay * pi) p)⟩
  else ⟨p, true, grad⟩

/-- Scalar prologue computations that the Python code obtains from external
`pytorch_optimizer` helpers using floating-point square roots, supplied as
parameters of the embedding: `norm` models `torch.linalg.norm`; `rect step`
models the rectified branch of `get_rectify_step_size` (returning the step
size and the SMA length `n_sma`); `bc2sq step` models
`math.sqrt(debias(beta2, step))`. -/
structure Ext where
  norm : Vec → ℚ
  rect : ℕ → ℚ × ℚ
  bc2sq : ℕ → ℚ

/-- Modelled from the spec: `pytorch_optimizer`'s `BaseOptimizer.debias` is
not under `src/`; spec §4.4 step 1 gives the bias-correction factor
`1 - β^t`. -/
def debias (beta : ℚ) (step : ℕ) : ℚ := 1 - beta ^ step

/-- Modelled from the spec: `BaseOptimizer.apply_adam_debias` is not under
`src/`; spec §4.4 step 3 optionally scales the step size by the
bias-correction-1 factor when the debiasing flag is set. -/
def apply_adam_debias (adam_debias : Bool) (step_size bias_correction1 : ℚ) : ℚ :=
  if adam_debias then step_size / bias_correction1 else step_size

/-- Modelled from the spec: `BaseOptimizer.get_rectify_step_size` is not under
`src/`; spec §4.4 step 2 — with rectification disabled the step size is simply
the learning rate (the SMA length is unused then); the rectified branch is
supplied by `ext.rect`. -/
def get_rectify_step_size (ext : Ext) (is_rectify : Bool) (step : ℕ) (lr : ℚ) : ℚ × ℚ :=
  if is_rectify then ext.rect step else (lr, 0)

/-- Modelled from the spec: `BaseOptimizer.get_adanorm_gradient` is not under
`src/`; spec §4.4 step 6 replaces the raw gradient by a normalized gradient
using a running exponential-moving-average norm with decay `r`.  Returns the
effective gradient and the updated norm buffer. -/
def get_adanorm_gradient (normOf : Vec → ℚ) (grad : Vec) (adanorm : Bool)
    (exp_grad_norm : Option ℚ) (r : Option ℚ) : Vec × Option ℚ :=
  if adanorm then
    match exp_grad_norm, r with
    | some egn, some rv =>
        let gn := normOf grad
        let egn' := rv * egn + (1 - rv) * gn
        (if gn ≠ 0 then grad.map (· * (egn' / gn)) else grad, some egn')
    | _, _ => (grad, exp_grad_norm)
  else (grad, exp_grad_norm)

/-- Modelled from the spec: `BaseOptimizer.apply_ams_bound` is not under
`src/`; spec §4.4 step 8 — with AMS-bound the denominator is the running
elementwise maximum of all second-moment values seen so far (the buffer is
updated to stay a running maximum), otherwise the current second moment.
Returns the denominator (a fresh tensor: the caller's later in-place division
of it does not write back into the state buffers) and the updated max
buffer. -/
def apply_ams_bound (ams_bound : Bool) (exp_avg_sq : Vec) (max_exp_avg_sq : Option Vec)
    (_eps : ℚ) : Vec × Option Vec :=
  if ams_bound then
    match max_exp_avg_sq with
    | some m =>
        let m' := m.zipWith max exp_avg_sq
        (m', some m')
    | none => (exp_avg_sq, none)
  else (exp_avg_sq, max_exp_avg_sq)

/-- Group-level scalars consumed by the parameter loop. -/
structure StepScalars where
  step_size : ℚ
  n_sma : ℚ
  bc2sq : ℚ

/-- A zeroed state record for a parameter, as built by the lazy initialization
in `step` (lines 132-141) and by `reset` (lines 196-205): both install
`torch.zeros_like` buffers, plus the adanorm and AMS-bound buffers when those
features are enabled. -/
def freshState (h : Hyper) (v : Vec) : PState :=
  { exp_avg := zerosLike v
    exp_avg_var := zerosLike v
    exp_grad_norm := if h.adanorm then some 0 else none
    max_exp_avg_var := if h.ams_bound then some (zerosLike v) else none }

/-- `state = self.state[p]; if len(state) == 0: ...` — the parameter's state,
lazily initialized on first encounter. -/
def lazyState (h : Hyper) (e : PEntry) : PState :=
  match e.state with
  | some s => s
  | none => freshState h e.value

/-- The dense-gradient body of the parameter loop of `adabelief_plus.step`
(lines 143-187), for a parameter with stored value `pv`, dense gradient
`grad0` and state `st`: apply weight decay (tracking the alias break of the
decoupled branch), compute the adanorm gradient, update the moments, and
apply the parameter update — which reaches the stored parameter only while
the local `p` still aliases it. -/
def stepParamDense (ext : Ext) (h : Hyper) (sc : StepScalars) (pv grad0 : Vec)
    (st : PState) : PEntry :=
  let wd := apply_weight_decay pv (some grad0) h.lr h.weight_decay
    h.weight_decouple h.fixed_decay none
  let grad1 : Vec := wd.grad.getD grad0
  let ag := get_adanorm_gradient ext.norm grad1 h.adanorm st.exp_grad_norm
    (if h.adanorm then some h.r else none)
  let exp_avg' := st.exp_avg.zipWith (fun m g => h.beta1 * m + (1 - h.beta1) * g) ag.1
  let grad_residual := grad1.zipWith (fun g m => g - m) exp_avg'
  let exp_avg_var' :=
    (st.exp_avg_var.zipWith (fun v rr => h.beta2 * v + (1 - h.beta2) * rr * rr)
      grad_residual).map (· + h.eps)
  let ab := apply_ams_bound h.ams_bound exp_avg_var' st.max_exp_avg_var h.eps
  let pLocal :=
    if ¬ h.rectify then
      addcdiv wd.pLocal exp_avg' (ab.1.map (· / sc.bc2sq)) (-sc.step_size)
    else if sc.n_sma ≥ (h.n_sma_threshold : ℚ) then
      addcdiv wd.pLocal exp_avg' ab.1 (-sc.step_size)
    else if sc.step_size > 0 then
      wd.pLocal.zipWith (fun x m => x + (-sc.step_size) * m) exp_avg'
    else wd.pLocal
  { value := if wd.aliased then pLocal else pv
    grad := some (.dense grad1)
    state := some { exp_avg := exp_avg', exp_avg_var := exp_avg_var',
                    exp_grad_norm := ag.2, max_exp_avg_var := ab.2 } }

/-- Embeds one iteration of the parameter loop of `adabelief_plus.step`
(lines 119-187).  A missing gradient skips the parameter; a sparse gradient
raises `NoSparseGradientError` before any mutation of this parameter; a dense
gradient lazily initializes the state and runs the dense body. -/
def stepParam (ext : Ext) (h : Hyper) (sc : StepScalars) (e : PEntry) : Except PyErr PEntry :=
  match e.grad with
  | none => .ok e
  | some .sparse => .error .noSparseGradient
  | some (.dense grad0) => .ok (stepParamDense ext h sc e.value grad0 (lazyState h e))

/-- The parameter loop run sequentially: on the first error, processing stops
and the already-processed prefix keeps its updates (Python exceptions do not
roll back heap mutations). -/
def stepParams (ext : Ext) (h : Hyper) (sc : StepScalars) :
    List PEntry → List PEntry × Option PyErr
  | [] => ([], none)
  | e :: rest =>
    match stepParam ext h sc e with
    | .error err => (e :: rest, some err)
    | .ok e' =>
      let r := stepParams ext h sc rest
      (e' :: r.1, r.2)

/-- One parameter group: hyperparameters, the step counter
(`group.get("step", 0)`), and the parameters. -/
structure Group where
  hyper : Hyper
  step : ℕ := 0
  params : List PEntry

/-- Embeds the per-group body of `adabelief_plus.step` (lines 90-187):
increment the step counter, compute `bias_correction1` and
`bias_correction2_sq`, obtain the (possibly rectified) step size and SMA
length, apply adam-debias, then run the parameter loop. -/
def stepGroup (ext : Ext) (g : Group) : Group × Option PyErr :=
  let t := g.step + 1
  let bias_correction1 := debias g.hyper.beta1 t
  let rss := get_rectify_step_size ext g.hyper.rectify t g.hyper.lr
  let step_size := apply_adam_debias g.hyper.adam_debias rss.1 bias_correction1
  let pr := stepParams ext g.hyper ⟨step_size, rss.2, ext.bc2sq t⟩ g.params
  ({ g with step := t, params := pr.1 }, pr.2)

/-- The group loop of `adabelief_plus.step`: groups processed in order until
the first error; already-processed groups keep their updates. -/
def stepGroups (ext : Ext) : List Group → List Group × Option PyErr
  | [] => ([], none)
  | g :: rest =>
    match stepGroup ext g with
    | (g', some err) => (g' :: rest, some err)
    | (g', none) =>
      let r := stepGroups ext rest
      (g' :: r.1, r.2)

/-- Embeds `adabelief_plus.step` (lines 84-189): evaluate the closure (if any)
to obtain the loss, run the group loop, and return the loss.  The loss
component is the function's return value and is only reached when the error
component is `none` (otherwise the exception propagates). -/
def adabelief_plus_step (ext : Ext) (closure : Option (Unit → ℚ)) (gs : List Group) :
    (List Group × Option PyErr) × Option ℚ :=
  let loss := closure.map fun f => f ()
  (stepGroups ext gs, loss)

/-- Embeds `OptimizerWrapper.step` (lines 235-243): it calls
`self.optimizer.step(*args, **kwargs)` with no `return` statement, so it
always returns Python `None` while propagating the state effects (and any
exception) of the underlying step. -/
def wrapperStep (ext : Ext) (closure : Option (Unit → ℚ)) (gs : List Group) :
    (List Group × Option PyErr) × Option ℚ :=
  let r := adabelief_plus_step ext closure gs
  (r.1, none)

/-- Embeds `adabelief_plus.reset` (lines 191-206): zero the group's step
counter and reinstall zeroed state buffers for every parameter. -/
def resetGroup (g : Group) : Group :=
  { g with
    step := 0
    params := g.params.map (fun e => { e with state := some (freshState g.hyper e.value) }) }

/-! ## Shared concrete inputs and dictionary lemmas -/

/-- The preset of spec §8's explicit-learning-rate test:
`{"lr": 0.01, "weight_decay": 0.01}`. -/
def presetLrWd : Dict := [("lr", .num (1 / 100)), ("weight_decay", .num (1 / 100))]

/-- Caller keywords supplying the explicit `lr = 0.001`. -/
def callerLr : Dict := [("lr", .num (1 / 1000))]

/-- A concrete model of the external square-root scalars, used for concrete
executions whose claimed outcome does not depend on them. -/
def extTriv : Ext := { norm := fun _ => 0, rect := fun _ => (0, 0), bc2sq := fun _ => 1 }

theorem dictContains_dictPop_self (d : Dict) (k : String) :
    dictContains (dictPop d k) k = false := by
  simp [dictContains, dictPop, List.any_eq_true, List.mem_filter]

theorem dictContains_dictUpdate_of_left (d kw : Dict) (k : String)
    (h : dictContains d k = true) : dictContains (dictUpdate d kw) k = true := by
  simp only [dictContains, dictUpdate, List.any_append, List.any_map, Bool.or_eq_true,
    List.any_eq_true] at h ⊢
  obtain ⟨kv, hm, hk⟩ := h
  exact Or.inl ⟨kv, hm, hk⟩

/-! ## Claim C4 -/

/-- C4: the claim states that resolving a configuration for an optimizer that
has a preset store but with a label absent from that store fails with a
`PresetNotFound` error naming the label.  The code does not: `get_config`
returns `use_case_configs.get(config_name)`, so for the real `adabelief`
store and the absent label `"flux"` it silently returns Python `None`
(`.ok none`), contradicting its own docstring ("Raises ValueError: If the
configuration is not found") and the dead `except AttributeError` handler
written for exactly this case. -/
theorem c4_missing_label_returns_none :
    adabeliefEnv.modules "config.adabelief_config" = some (some adabeliefStore)
    ∧ storeGet adabeliefStore "flux" = none
    ∧ get_config adabeliefEnv (.str "adabelief") "flux" = .ok none :=
  ⟨rfl, rfl, rfl⟩

/-! ## Claim C5 -/

/-- C5: for every preset containing a learning-rate entry and every caller
keyword dictionary, the preset's `"lr"` entry is discarded from the merged
configuration unconditionally — keyword binding routes any caller `lr=` to
the dedicated constructor parameter, so `"lr" not in kwargs` always holds —
and a caller who omits the learning rate gets the default `0.001`, which is
what `initArgs` hands to a learning-rate-accepting implementation. -/
theorem c5_preset_lr_unconditionally_stripped (preset callerKwargs : Dict)
    (hlr : dictContains preset "lr" = true) :
    dictContains (wrapperInitConfig preset callerKwargs).2 "lr" = false
    ∧ (dictGet callerKwargs "lr" = none →
        (wrapperInitConfig preset callerKwargs).1 = 1 / 1000
        ∧ dictGet (initArgs true (wrapperInitConfig preset callerKwargs).1
            (wrapperInitConfig preset callerKwargs).2) "lr" = some (Val.num (1 / 1000))) := by
  have hkw : dictContains (dictPop callerKwargs "lr") "lr" = false :=
    dictContains_dictPop_self callerKwargs "lr"
  have hcfg : dictContains (dictUpdate preset (dictPop callerKwargs "lr")) "lr" = true :=
    dictContains_dictUpdate_of_left preset (dictPop callerKwargs "lr") "lr" hlr
  constructor
  · simp [wrapperInitConfig, bindInitKwargs, wrapperMergeConfig, hkw, hcfg,
      dictContains_dictPop_self]
  · intro hnone
    have hn : List.find? (fun kv => decide (kv.1 = "lr")) callerKwargs = none := by
      simpa [dictGet, Option.map_eq_none'] using hnone
    constructor
    · simp [wrapperInitConfig, bindInitKwargs, dictGet, hn]
    · simp [initArgs, dictGet, wrapperInitConfig, bindInitKwargs, hn]

/-- Witness for C5 at the concrete preset `{"lr": 0.01, "weight_decay": 0.01}`
and an empty caller keyword dictionary. -/
theorem c5_witness :
    dictContains presetLrWd "lr" = true
    ∧ (dictContains (wrapperInitConfig presetLrWd []).2 "lr" = false
       ∧ (dictGet ([] : Dict) "lr" = none →
           (wrapperInitConfig presetLrWd []).1 = 1 / 1000
           ∧ dictGet (initArgs true (wrapperInitConfig presetLrWd []).1
               (wrapperInitConfig presetLrWd []).2) "lr" = some (Val.num (1 / 1000)))) :=
  ⟨rfl, c5_preset_lr_unconditionally_stripped presetLrWd [] rfl⟩

/-! ## Claim C6 -/

/-- C6: with preset `{"lr": 0.01, "weight_decay": 0.01}` and an explicit
caller learning rate `0.001`, the configuration fed to the underlying
constructor carries `lr = 0.001` and not `0.01`: the explicit value wins
(the preset's entry is stripped from the merged dict and the constructor
receives the explicit value as its `lr` keyword). -/
theorem c6_explicit_lr_beats_preset :
    (wrapperInitConfig presetLrWd callerLr).1 = 1 / 1000
    ∧ dictGet (initArgs true (wrapperInitConfig presetLrWd callerLr).1
        (wrapperInitConfig presetLrWd callerLr).2) "lr" = some (.num (1 / 1000))
    ∧ dictContains (wrapperInitConfig presetLrWd callerLr).2 "lr" = false
    ∧ ¬ dictGet (initArgs true (wrapperInitConfig presetLrWd callerLr).1
        (wrapperInitConfig presetLrWd callerLr).2) "lr" = some (.num (1 / 100)) := by
  refine ⟨rfl, rfl, rfl, ?_⟩
  intro hc
  simp [initArgs, dictGet, wrapperInitConfig, wrapperMergeConfig, bindInitKwargs,
    presetLrWd, callerLr] at hc

/-! ## Claim C7 -/

/-- C7: whenever the enhanced lookup finds a valid class under the lowercased
identifier plus `"_plus"`, `get_optimizer_class` returns that class with
`is_plus = true` — regardless of what the standard registry holds (the
fallback is never consulted on this path). -/
theorem c7_enhanced_takes_priority (env : OptEnv) (name c : String)
    (attrs : String → Option PySymbol)
    (hm : env.safeModules ("safe_optimizer." ++ (name.toLower ++ "_plus")) = some attrs)
    (ha : attrs (name.toLower ++ "_plus") = some (.cls c)) :
    get_optimizer_class env name = .ok (c, true) := by
  simp [get_optimizer_class, hm, ha]

/-- An import environment in which every `safe_optimizer` module lookup finds
a module whose every attribute is the class `"adabelief_plus"`, while the
standard registry also answers every name: the enhanced tier must still win. -/
def envEveryClass : OptEnv :=
  { safeModules := fun _ => some (fun _ => some (.cls "adabelief_plus"))
    registry := fun _ => some "StdAdaBelief" }

/-- Witness for C7: in `envEveryClass` (where the standard registry also has
an entry) the resolution of `"AdaBelief"` returns the enhanced class. -/
theorem c7_witness :
    envEveryClass.registry "AdaBelief" = some "StdAdaBelief"
    ∧ get_optimizer_class envEveryClass "AdaBelief" = .ok ("adabelief_plus", true) :=
  ⟨rfl, c7_enhanced_takes_priority envEveryClass "AdaBelief" "adabelief_plus"
    (fun _ => some (.cls "adabelief_plus")) rfl rfl⟩

/-! ## Claim C8 -/

/-- C8: whenever the enhanced lookup finds the symbol but it is not a class,
`get_optimizer_class` raises `TypeError` (the spec's
`InvalidOptimizerDefinition`) — the result is an error, not a fallback to the
standard registry, whatever the registry contains. -/
theorem c8_nonclass_symbol_raises (env : OptEnv) (name : String)
    (attrs : String → Option PySymbol)
    (hm : env.safeModules ("safe_optimizer." ++ (name.toLower ++ "_plus")) = some attrs)
    (ha : attrs (name.toLower ++ "_plus") = some .nonClass) :
    get_optimizer_class env name =
      .error (.typeError ("'" ++ (name.toLower ++ "_plus") ++ "' in '"
        ++ ("safe_optimizer." ++ (name.toLower ++ "_plus")) ++ "' must be a class.")) := by
  simp [get_optimizer_class, hm, ha]

/-- An import environment in which every enhanced lookup finds a non-class
symbol while the standard registry answers every name. -/
def envEveryNonClass : OptEnv :=
  { safeModules := fun _ => some (fun _ => some .nonClass)
    registry := fun _ => some "StdAdaBelief" }

/-- Witness for C8: in `envEveryNonClass` the resolution of `"AdaBelief"`
fails with `TypeError` even though the standard registry has an entry. -/
theorem c8_witness :
    envEveryNonClass.registry "AdaBelief" = some "StdAdaBelief"
    ∧ get_optimizer_class envEveryNonClass "AdaBelief" =
        .error (.typeError ("'" ++ ("AdaBelief".toLower ++ "_plus") ++ "' in '"
          ++ ("safe_optimizer." ++ ("AdaBelief".toLower ++ "_plus")) ++ "' must be a class.")) :=
  ⟨rfl, c8_nonclass_symbol_raises envEveryNonClass "AdaBelief"
    (fun _ => some .nonClass) rfl rfl⟩

/-! ## Claim C2 -/

/-- C2 counterexample: with a closure recomputing the loss `5`, the underlying
implementation's step returns `some 5` but the wrapper's step returns `none` —
`OptimizerWrapper.step` calls `self.optimizer.step(...)` without a `return`
statement, so the claim that it returns the underlying result is false. -/
theorem c2_counterexample :
    (adabelief_plus_step extTriv (some (fun _ => (5 : ℚ))) []).2 = some 5
    ∧ (wrapperStep extTriv (some (fun _ => (5 : ℚ))) []).2 = none
    ∧ (wrapperStep extTriv (some (fun _ => (5 : ℚ))) []).2
        ≠ (adabelief_plus_step extTriv (some (fun _ => (5 : ℚ))) []).2 := by
  refine ⟨rfl, rfl, ?_⟩
  intro hc
  simp [wrapperStep, adabelief_plus_step] at hc

/-- C2 amended: the wrapper's step delegates to the underlying
implementation's step — it produces the same parameter-group effects and the
same exception — but it always returns none, discarding the underlying return
value (the closure-recomputed loss included). -/
theorem c2_amended_always_returns_none (ext : Ext) (closure : Option (Unit → ℚ))
    (gs : List Group) :
    (wrapperStep ext closure gs).1 = (adabelief_plus_step ext closure gs).1
    ∧ (wrapperStep ext closure gs).2 = none :=
  ⟨rfl, rfl⟩

/-! ## List helper lemmas -/

theorem zipWith_congr_fun {α β γ : Type} {f g : α → β → γ} (hfg : ∀ a b, f a b = g a b) :
    ∀ (l1 : List α) (l2 : List β), List.zipWith f l1 l2 = List.zipWith g l1 l2 := by
  intro l1
  induction l1 with
  | nil => intro l2; simp
  | cons a t ih =>
    intro l2
    cases l2 with
    | nil => simp
    | cons b t2 => simp [hfg, ih]

theorem exists_of_mem_zipWith {α β γ : Type} {f : α → β → γ} :
    ∀ {l1 : List α} {l2 : List β} {c : γ},
      c ∈ List.zipWith f l1 l2 → ∃ a ∈ l1, ∃ b ∈ l2, c = f a b := by
  intro l1
  induction l1 with
  | nil => intro l2 c hc; simp at hc
  | cons a t ih =>
    intro l2 c hc
    cases l2 with
    | nil => simp at hc
    | cons b t2 =>
      simp only [List.zipWith_cons_cons, List.mem_cons] at hc
      rcases hc with rfl | hc
      · exact ⟨a, by simp, b, by simp, rfl⟩
      · obtain ⟨x, hx, y, hy, rfl⟩ := ih hc
        exact ⟨x, by simp [hx], y, by simp [hy], rfl⟩

/-! ## Claim C10 -/

/-- C10: the parameter loop is not atomic on a sparse-gradient error.  If the
parameters are a prefix `pre` that processes without error, followed by a
parameter whose gradient is sparse, followed by anything, then the step
raises `NoSparseGradientError` exactly at that parameter: the prefix keeps
precisely the updates that processing it alone would produce (moment state,
and — through `PEntry` — the gradient and value mutations of the
coupled-weight-decay case), while the sparse parameter and everything after
it are untouched. -/
theorem c10_sparse_error_not_atomic (ext : Ext) (h : Hyper) (sc : StepScalars)
    (pre : List PEntry) (eS : PEntry) (rest : List PEntry)
    (hpre : (stepParams ext h sc pre).2 = none)
    (hsp : eS.grad = some .sparse) :
    stepParams ext h sc (pre ++ eS :: rest)
      = ((stepParams ext h sc pre).1 ++ eS :: rest, some .noSparseGradient) := by
  induction pre with
  | nil => simp [stepParams, stepParam, hsp]
  | cons e t ih =>
    cases hse : stepParam ext h sc e with
    | error err => simp [stepParams, hse] at hpre
    | ok e' =>
      have hpt : (stepParams ext h sc t).2 = none := by
        simpa [stepParams, hse] using hpre
      simp [stepParams, hse, ih hpt]

/-- A one-parameter dense prefix for the C10 witness. -/
def preDense : List PEntry := [{ value := [0], grad := some (.dense [1]), state := none }]

/-- A sparse-gradient parameter for the C10 witness. -/
def eSparse : PEntry := { value := [2], grad := some .sparse, state := none }

/-- Witness for C10: with one dense parameter before a sparse one, the loop
errors with `NoSparseGradientError`, keeps the dense parameter's update, and
leaves the sparse parameter untouched. -/
theorem c10_witness :
    (stepParams extTriv {} ⟨1 / 100, 0, 1⟩ preDense).2 = none
    ∧ eSparse.grad = some .sparse
    ∧ stepParams extTriv {} ⟨1 / 100, 0, 1⟩ (preDense ++ eSparse :: [])
        = ((stepParams extTriv {} ⟨1 / 100, 0, 1⟩ preDense).1 ++ eSparse :: [],
           some .noSparseGradient) :=
  ⟨rfl, rfl,
   c10_sparse_error_not_atomic extTriv {} ⟨1 / 100, 0, 1⟩ preDense eSparse [] rfl rfl⟩

/-! ## Claim C9 -/

/-- The first-moment update rule in the spec's words:
`exp_avg = β1*exp_avg + (1-β1)*effective_grad`. -/
def specFirstMoment (beta1 m g : ℚ) : ℚ := beta1 * m + (1 - beta1) * g

/-- The second-moment update rule in the spec's words:
`exp_avg_var = β2*exp_avg_var + (1-β2)*residual² + eps`, with the epsilon
added into the accumulator itself. -/
def specSecondMoment (beta2 eps v residual : ℚ) : ℚ :=
  beta2 * v + (1 - beta2) * residual ^ 2 + eps

/-- C9: on every step, for every parameter with a dense gradient, the new
state produced by the dense body satisfies exactly the spec's update rules:
the first moment blends the effective (adanorm) gradient, and the second
moment blends the square of the residual between the gradient and the *new*
first moment — not the gradient itself — with `eps` added into the
accumulator, which under `0 ≤ β2 ≤ 1`, nonnegative prior variance and
`0 < eps` floors every second-moment entry (the division denominator's
source) at `eps > 0`. -/
theorem c9_moment_update_rule (ext : Ext) (h : Hyper) (sc : StepScalars)
    (pv grad0 : Vec) (st : PState)
    (hb2l : 0 ≤ h.beta2) (hb2u : h.beta2 ≤ 1) (heps : 0 < h.eps)
    (hvar : ∀ v ∈ st.exp_avg_var, 0 ≤ v) :
    ∃ s', (stepParamDense ext h sc pv grad0 st).state = some s'
    ∧ (∃ grad1 s_grad,
        grad1 = (apply_weight_decay pv (some grad0) h.lr h.weight_decay
          h.weight_decouple h.fixed_decay none).grad.getD grad0
        ∧ s_grad = (get_adanorm_gradient ext.norm grad1 h.adanorm st.exp_grad_norm
            (if h.adanorm then some h.r else none)).1
        ∧ s'.exp_avg = st.exp_avg.zipWith (specFirstMoment h.beta1) s_grad
        ∧ s'.exp_avg_var = st.exp_avg_var.zipWith (specSecondMoment h.beta2 h.eps)
            (grad1.zipWith (fun g m => g - m) s'.exp_avg))
    ∧ ∀ x ∈ s'.exp_avg_var, h.eps ≤ x ∧ 0 < x := by
  refine ⟨_, rfl, ⟨_, _, rfl, rfl, rfl, ?_⟩, ?_⟩
  · rw [List.map_zipWith]
    exact zipWith_congr_fun (fun v r => by simp [specSecondMoment]; ring) _ _
  · intro x hx
    simp only [stepParamDense] at hx
    rw [List.map_zipWith] at hx
    obtain ⟨v, hv, r, _, rfl⟩ := exists_of_mem_zipWith hx
    have h1 : 0 ≤ h.beta2 * v := mul_nonneg hb2l (hvar v hv)
    have h2 : 0 ≤ (1 - h.beta2) * r * r := by nlinarith [sq_nonneg r]
    constructor
    · nlinarith
    · nlinarith

/-- Witness for C9 at the default hyperparameters, one scalar parameter with
value `0`, dense gradient `1`, and a fresh zeroed state. -/
theorem c9_witness :
    ((0 : ℚ) ≤ ({} : Hyper).beta2 ∧ ({} : Hyper).beta2 ≤ 1 ∧ (0 : ℚ) < ({} : Hyper).eps
      ∧ ∀ v ∈ (freshState {} [0]).exp_avg_var, 0 ≤ v)
    ∧ (∃ s', (stepParamDense extTriv {} ⟨1 / 100, 0, 1⟩ [0] [1] (freshState {} [0])).state
          = some s'
        ∧ (∃ grad1 s_grad,
            grad1 = (apply_weight_decay [0] (some [1]) ({} : Hyper).lr ({} : Hyper).weight_decay
              ({} : Hyper).weight_decouple ({} : Hyper).fixed_decay none).grad.getD [1]
            ∧ s_grad = (get_adanorm_gradient extTriv.norm grad1 ({} : Hyper).adanorm
                (freshState {} [0]).exp_grad_norm
                (if ({} : Hyper).adanorm then some ({} : Hyper).r else none)).1
            ∧ s'.exp_avg = (freshState {} [0]).exp_avg.zipWith
                (specFirstMoment ({} : Hyper).beta1) s_grad
            ∧ s'.exp_avg_var = (freshState {} [0]).exp_avg_var.zipWith
                (specSecondMoment ({} : Hyper).beta2 ({} : Hyper).eps)
                (grad1.zipWith (fun g m => g - m) s'.exp_avg))
        ∧ ∀ x ∈ s'.exp_avg_var, ({} : Hyper).eps ≤ x ∧ 0 < x) :=
  ⟨⟨by norm_num [Hyper.beta2], by norm_num [Hyper.beta2], by norm_num [Hyper.eps],
    by simp [freshState, zerosLike]⟩,
   c9_moment_update_rule extTriv {} ⟨1 / 100, 0, 1⟩ [0] [1] (freshState {} [0])
     (by norm_num [Hyper.beta2]) (by norm_num [Hyper.beta2]) (by norm_num [Hyper.eps])
     (by simp [freshState, zerosLike])⟩

/-! ## Claim C3 -/

theorem zipWith_replicate_pair (f : ℚ → ℚ → ℚ) (a b : ℚ) (n : ℕ) :
    List.zipWith f (List.replicate n a) (List.replicate n b) = List.replicate n (f a b) := by
  induction n with
  | zero => rfl
  | succ k ih => simp [List.replicate_succ, ih]

theorem zipWith_replicate_right (f : ℚ → ℚ → ℚ) (b : ℚ) (l : List ℚ) :
    List.zipWith f l (List.replicate l.length b) = l.map (fun x => f x b) := by
  induction l with
  | nil => rfl
  | cons x t ih => simp [List.replicate_succ, ih]

/-- What one zero-gradient step directly after `reset` actually produces for a
parameter (decoupled or non-positive weight decay): value unchanged, first
moment and adanorm buffer still zero, but the second-moment buffer — and the
AMS max buffer, when enabled — equal to `eps`, because the step adds `eps`
into the accumulator unconditionally. -/
def zeroStepEntry (h : Hyper) (e : PEntry) : PEntry :=
  { value := e.value
    grad := some (.dense (zerosLike e.value))
    state := some
      { exp_avg := zerosLike e.value
        exp_avg_var := e.value.map (fun _ => h.eps)
        exp_grad_norm := if h.adanorm then some 0 else none
        max_exp_avg_var := if h.ams_bound then some (e.value.map (fun _ => h.eps)) else none } }

theorem stepParamDense_zero_grad (ext : Ext) (h : Hyper) (sc : StepScalars) (v : Vec)
    (hdec : h.weight_decouple = true ∨ ¬ (h.weight_decay > 0))
    (hnorm : ext.norm (zerosLike v) = 0)
    (heps : 0 ≤ h.eps) :
    stepParamDense ext h sc v (zerosLike v) (freshState h v)
      = { value := v
          grad := some (.dense (zerosLike v))
          state := some
            { exp_avg := zerosLike v
              exp_avg_var := v.map (fun _ => h.eps)
              exp_grad_norm := if h.adanorm then some 0 else none
              max_exp_avg_var := if h.ams_bound then some (v.map (fun _ => h.eps)) else none } } := by
  have hz : zerosLike v = List.replicate v.length (0 : ℚ) := by
    simp [zerosLike]
  rw [hz] at hnorm
  by_cases hwdec : h.weight_decouple = true
  · simp only [stepParamDense, apply_weight_decay, hwdec, if_true, freshState, hz, zerosLike]
    by_cases han : h.adanorm <;>
      by_cases hab : h.ams_bound <;>
        simp [get_adanorm_gradient, apply_ams_bound, han, hab, hnorm,
          zipWith_replicate_pair, zipWith_replicate_right, List.map_map, Function.comp,
          max_eq_right heps]
  · have hwd' : ¬ (h.weight_decay > 0) := hdec.resolve_left hwdec
    simp only [stepParamDense, apply_weight_decay, hwdec, if_false, freshState, hz, zerosLike]
    by_cases han : h.adanorm <;>
      by_cases hab : h.ams_bound <;>
        simp [get_adanorm_gradient, apply_ams_bound, addcdiv, han, hab, hnorm, hwd',
          zipWith_replicate_pair, zipWith_replicate_right, List.map_map, Function.comp,
          max_eq_right heps]

theorem stepParam_after_reset_zero_grad (ext : Ext) (h : Hyper) (sc : StepScalars) (e : PEntry)
    (hdec : h.weight_decouple = true ∨ ¬ (h.weight_decay > 0))
    (hg : e.grad = some (.dense (zerosLike e.value)))
    (hnorm : ext.norm (zerosLike e.value) = 0)
    (heps : 0 ≤ h.eps) :
    stepParam ext h sc { e with state := some (freshState h e.value) }
      = .ok (zeroStepEntry h e) := by
  simp only [stepParam, hg, lazyState]
  rw [stepParamDense_zero_grad ext h sc e.value hdec hnorm heps]
  rfl

theorem stepParams_after_reset_zero_grad (ext : Ext) (h : Hyper) (sc : StepScalars)
    (l : List PEntry)
    (hdec : h.weight_decouple = true ∨ ¬ (h.weight_decay > 0))
    (heps : 0 ≤ h.eps)
    (hg : ∀ e ∈ l, e.grad = some (.dense (zerosLike e.value)))
    (hnorm : ∀ e ∈ l, ext.norm (zerosLike e.value) = 0) :
    stepParams ext h sc (l.map (fun e => { e with state := some (freshState h e.value) }))
      = (l.map (zeroStepEntry h), none) := by
  induction l with
  | nil => rfl
  | cons e t ih =>
    have he := stepParam_after_reset_zero_grad ext h sc e hdec (hg e (by simp))
      (hnorm e (by simp)) heps
    simp only [List.map_cons, stepParams, he]
    rw [ih (fun x hx => hg x (by simp [hx])) (fun x hx => hnorm x (by simp [hx]))]

/-- C3 amended: calling `reset` then immediately `step` with all-zero dense
gradients sets the step counter to 1 and — provided weight decay is decoupled
or non-positive — leaves every parameter value unchanged and the first-moment
and adanorm buffers at zero, but the second-moment buffer (and the AMS
running-max buffer, when enabled) ends at exactly `eps`, not at its initial
zero: the step adds `eps` into the accumulator unconditionally. -/
theorem c3_amended_reset_then_zero_step (ext : Ext) (g : Group)
    (hdec : g.hyper.weight_decouple = true ∨ ¬ (g.hyper.weight_decay > 0))
    (heps : 0 ≤ g.hyper.eps)
    (hg : ∀ e ∈ g.params, e.grad = some (.dense (zerosLike e.value)))
    (hnorm : ∀ e ∈ g.params, ext.norm (zerosLike e.value) = 0) :
    stepGroup ext (resetGroup g)
      = ({ hyper := g.hyper, step := 1, params := g.params.map (zeroStepEntry g.hyper) },
         none) := by
  simp only [stepGroup, resetGroup]
  rw [stepParams_after_reset_zero_grad ext g.hyper _ g.params hdec heps hg hnorm]

/-- The concrete C3 instance: default hyperparameters, one parameter of value
`[5]` with a zero dense gradient and no prior state, previously stepped seven
times. -/
def groupDefaultZeroGrad : Group :=
  { hyper := {}, step := 7,
    params := [{ value := [5], grad := some (.dense [0]), state := none }] }

/-- C3 counterexample: at the concrete instance, after `reset` followed by a
zero-gradient step, the step counter is 1 as claimed, but the second-moment
buffer holds `eps = 10⁻¹⁶ ≠ 0` — not its initial zero value — so the claim
that every per-parameter state buffer is left at its initial zero value is
false. -/
theorem c3_counterexample :
    (stepGroup extTriv (resetGroup groupDefaultZeroGrad)).1.step = 1
    ∧ ((stepGroup extTriv (resetGroup groupDefaultZeroGrad)).1.params.map
        (fun e => e.state.map PState.exp_avg_var)) = [some [1 / 10 ^ 16]]
    ∧ ¬ ((1 : ℚ) / 10 ^ 16 = 0) := by
  refine ⟨rfl, ?_, by norm_num⟩
  norm_num [stepGroup, stepParams, stepParam, stepParamDense, resetGroup, groupDefaultZeroGrad,
    freshState, lazyState, zerosLike, apply_weight_decay, get_adanorm_gradient, apply_ams_bound,
    addcdiv, get_rectify_step_size, apply_adam_debias, debias]

/-- Witness for the amended C3 at the concrete instance. -/
theorem c3_witness :
    (({} : Hyper).weight_decouple = true ∨ ¬ (({} : Hyper).weight_decay > 0))
    ∧ (0 : ℚ) ≤ ({} : Hyper).eps
    ∧ (∀ e ∈ groupDefaultZeroGrad.params, e.grad = some (.dense (zerosLike e.value)))
    ∧ (∀ e ∈ groupDefaultZeroGrad.params, extTriv.norm (zerosLike e.value) = 0)
    ∧ stepGroup extTriv (resetGroup groupDefaultZeroGrad)
        = ({ hyper := groupDefaultZeroGrad.hyper, step := 1,
             params := groupDefaultZeroGrad.params.map
               (zeroStepEntry groupDefaultZeroGrad.hyper) }, none) :=
  ⟨Or.inl rfl, by norm_num [Hyper.eps],
   by simp [groupDefaultZeroGrad, zerosLike],
   fun e _ => rfl,
   c3_amended_reset_then_zero_step extTriv groupDefaultZeroGrad (Or.inl rfl)
     (by norm_num [groupDefaultZeroGrad, Hyper.eps])
     (by simp [groupDefaultZeroGrad, zerosLike])
     (fun e _ => rfl)⟩

/-! ## Claim C1 -/

/-- The general form of the defect behind C1: whenever weight decay is
decoupled, `apply_weight_decay` rebinds the local `p` to the fresh tensor
`p * decay_factor`, so the in-place `p.addcdiv_` / `p.add_` of the update
lands on that temporary and the stored parameter value is returned
unchanged — the step never updates any parameter. -/
theorem stepParamDense_decoupled_keeps_value (ext : Ext) (h : Hyper) (sc : StepScalars)
    (pv grad0 : Vec) (st : PState) (hdec : h.weight_decouple = true) :
    (stepParamDense ext h sc pv grad0 st).value = pv := by
  simp [stepParamDense, apply_weight_decay, hdec]

/-- Witness for the decoupled-keeps-value lemma at the default
hyperparameters. -/
theorem stepParamDense_decoupled_keeps_value_witness :
    ({} : Hyper).weight_decouple = true
    ∧ (stepParamDense extTriv {} ⟨1 / 100, 0, 1⟩ [0] [1] (freshState {} [0])).value = [0] :=
  ⟨rfl, stepParamDense_decoupled_keeps_value extTriv {} ⟨1 / 100, 0, 1⟩ [0] [1]
    (freshState {} [0]) rfl⟩

/-- The hyperparameters of spec §8's end-to-end test: the preset disables
rectification, AMS-bound and adanorm (as `low_memory` does, with its
decoupled weight decay `0.01` and `eps = 1e-8`), and the explicit learning
rate is `0.01`. -/
def hyperEndToEnd : Hyper :=
  { lr := 1 / 100, beta1 := 9 / 10, beta2 := 999 / 1000, weight_decay := 1 / 100,
    weight_decouple := true, fixed_decay := false, rectify := false,
    ams_bound := false, adanorm := false, adam_debias := false, eps := 1 / 10 ^ 8 }

/-- The 2-parameter model of the end-to-end test: both parameters start at
`0.0` and both receive dense gradient `1.0`. -/
def groupEndToEnd : Group :=
  { hyper := hyperEndToEnd, step := 0,
    params := [{ value := [0], grad := some (.dense [1]), state := none },
               { value := [0], grad := some (.dense [1]), state := none }] }

/-- C1: the claimed end-to-end property fails on the code.  For every model
of the external floating-point scalars, one step on the end-to-end
configuration completes without error yet leaves both parameter values at
exactly `0` — not strictly negative — because the decoupled weight-decay
branch rebinds the local `p` out of place and the in-place update mutates
that temporary instead of the stored parameter. -/
theorem c1_step_leaves_parameters_at_zero (ext : Ext) :
    (stepGroup ext groupEndToEnd).1.params.map PEntry.value = [[0], [0]]
    ∧ (stepGroup ext groupEndToEnd).2 = none
    ∧ ∀ w ∈ (stepGroup ext groupEndToEnd).1.params, ∀ x ∈ w.value, ¬ x < 0 := by
  have hmap : (stepGroup ext groupEndToEnd).1.params.map PEntry.value = [[0], [0]] := rfl
  refine ⟨hmap, rfl, ?_⟩
  intro w hw x hx
  have hwv := List.mem_map_of_mem PEntry.value hw
  rw [hmap] at hwv
  simp only [List.mem_cons, List.not_mem_nil, or_false] at hwv
  have hx0 : x = 0 := by
    rcases hwv with hwv | hwv <;> · rw [hwv] at hx; simpa using hx
  simp [hx0]

end Pyrodigy
